import Mathlib

/-!
Verification development for the asset-manager worker of `as-web-xwtx`
(`src/workers/assetManager.ts`).

Bytes are modelled as `Nat` values and byte buffers as `List Nat`.  External
cryptographic primitives (`crypto.subtle.digest('SHA-1', ...)` and the raw
single-block AES encryption obtained from `crypto.subtle.encrypt` with
AES-CBC and a zero IV) are modelled as abstract functions carrying only their
output-length facts, since their implementations live outside the repository.
-/

namespace AsWeb

/-- Abstract model of the SHA-1 digest primitive used by `digestSha1`:
an arbitrary function over byte lists whose digests are always 20 bytes. -/
structure Sha1Fun where
  f : List Nat → List Nat
  len : ∀ x, (f x).length = 20

/-- Abstract model of the AES single-block encryption primitive used by
`decryptAesCtrPbkdf1` (`crypto.subtle.encrypt` with AES-CBC and zero IV,
of which the code keeps the first 16 bytes): `enc key block` returns at
least 16 bytes. -/
structure AesPrim where
  enc : List Nat → List Nat → List Nat
  len : ∀ k b, 16 ≤ (enc k b).length

/-- The `for (let i = 0; i < n; i++) hash = sha1(hash)` loop of
`getKeyPbkdf1`. -/
def iterSha (s : Sha1Fun) : Nat → List Nat → List Nat
  | 0, h => h
  | n + 1, h => iterSha s n (s.f h)

/-- The `while (hashder.length < keyLen)` extension loop of `getKeyPbkdf1`:
append `sha1([index + 48] ++ hash)` until the buffer reaches `keyLen`. -/
def extendLoop (s : Sha1Fun) (hash : List Nat) (keyLen index : Nat)
    (hashder : List Nat) : List Nat :=
  if h : hashder.length < keyLen then
    extendLoop s hash keyLen (index + 1) (hashder ++ s.f ((index + 48) :: hash))
  else hashder
termination_by keyLen - hashder.length
decreasing_by
  simp only [List.length_append, s.len]
  omega

/-- Model of `getKeyPbkdf1(password, salt, keyLen, countParam)`
(src/workers/assetManager.ts lines 27–57).  The TS function receives the
password as a string and UTF-8 encodes it; here the already-encoded
password bytes are taken as input. -/
def getKeyPbkdf1 (s : Sha1Fun) (password salt : List Nat)
    (keyLen countParam : Nat) : List Nat :=
  let count := countParam - 1
  let hash0 := s.f (password ++ salt)
  let hashN := iterSha s (count - 1) hash0
  let hashder := s.f hashN
  (extendLoop s hashN keyLen 1 hashder).take keyLen

/-- The spec's extension step (§4.1 step 4), written from the spec's words:
starting from a 1-based marker, repeatedly append
`SHA1(byte(marker + 48) ‖ hashN)` to the seed until the accumulated length
reaches `keyLen`. -/
def specExtend (s : Sha1Fun) (hashN : List Nat) (keyLen marker : Nat)
    (seed : List Nat) : List Nat :=
  if h : seed.length < keyLen then
    specExtend s hashN keyLen (marker + 1) (seed ++ s.f ((marker + 48) :: hashN))
  else seed
termination_by keyLen - seed.length
decreasing_by
  simp only [List.length_append, s.len]
  omega

/-- The spec's `Derive` algorithm (§4.1 steps 1–5), written from the spec's
words: `hash₀ = SHA1(password ‖ salt)`; apply SHA1 exactly
`(iterationCount − 1) − 1` additional times giving `hashN`;
`seed = SHA1(hashN)`; extend with 1-based markers; take `keyLength` bytes. -/
def deriveSpec (s : Sha1Fun) (password salt : List Nat)
    (keyLen countParam : Nat) : List Nat :=
  let hash0 := s.f (password ++ salt)
  let hashN := Nat.iterate s.f ((countParam - 1) - 1) hash0
  let seed := s.f hashN
  (specExtend s hashN keyLen 1 seed).take keyLen

/-- The 16-byte counter block built by `decryptAesCtrPbkdf1`: bytes 0–7 are
the 64-bit little-endian counter (`setBigUint64(0, counter, true)`), bytes
8–15 stay zero. -/
def counterBlock (counter : Nat) : List Nat :=
  (List.range 8).map (fun i => counter / 256 ^ i % 256) ++ List.replicate 8 0

/-- The per-block loop of `decryptAesCtrPbkdf1`: XOR each 16-byte chunk of
`data` with the keystream block for the current counter, consuming only as
many keystream bytes as the (possibly shorter final) chunk has. -/
def ctrXorLoop (ks : Nat → List Nat) (counter : Nat) (data : List Nat) :
    List Nat :=
  if h : data = [] then []
  else
    List.zipWith Nat.xor (data.take 16) (ks counter) ++
      ctrXorLoop ks (counter + 1) (data.drop 16)
termination_by data.length
decreasing_by
  have : data.length ≠ 0 := fun hlen => h (List.eq_nil_of_length_eq_zero hlen)
  simp only [List.length_drop]
  omega

/-- Model of `decryptAesCtrPbkdf1(data, password, salt, keyLen, countParam)`
(src/workers/assetManager.ts lines 59–107): derive the key with
`getKeyPbkdf1`, then XOR `data` blockwise with single-block encryptions of
the little-endian counter blocks, the counter starting at 1. -/
def decryptAesCtrPbkdf1 (s : Sha1Fun) (aes : AesPrim) (data : List Nat)
    (password salt : List Nat) (keyLen countParam : Nat) : List Nat :=
  let keyBytes := getKeyPbkdf1 s password salt keyLen countParam
  ctrXorLoop (fun c => (aes.enc keyBytes (counterBlock c)).take 16) 1 data

/-- A concrete 20-byte "digest" function used to instantiate witnesses. -/
def sha1Dummy : Sha1Fun :=
  ⟨fun x => List.replicate 20 (x.length % 256), fun _ => List.length_replicate _ _⟩

/-- A concrete 16-byte "block encryption" used to instantiate witnesses. -/
def aesDummy : AesPrim :=
  ⟨fun k b => List.replicate 16 ((k.length + b.length) % 256),
   fun _ _ => le_of_eq (List.length_replicate _ _).symm⟩

lemma iterSha_eq_iterate (s : Sha1Fun) :
    ∀ (n : Nat) (h : List Nat), iterSha s n h = Nat.iterate s.f n h := by
  intro n
  induction n with
  | zero => intro h; rfl
  | succ k ih => intro h; simp only [iterSha, Nat.iterate]; exact ih (s.f h)

lemma extendLoop_eq_specExtend (s : Sha1Fun) (hash : List Nat)
    (keyLen : Nat) : ∀ (index : Nat) (hashder : List Nat),
    extendLoop s hash keyLen index hashder = specExtend s hash keyLen index hashder := by
  intro index hashder
  rw [extendLoop, specExtend]
  split
  · next h =>
      exact extendLoop_eq_specExtend s hash keyLen (index + 1)
        (hashder ++ s.f ((index + 48) :: hash))
  · rfl
termination_by index hashder => keyLen - hashder.length
decreasing_by
  simp only [List.length_append, s.len]
  omega

lemma extendLoop_length (s : Sha1Fun) (hash : List Nat) (keyLen : Nat) :
    ∀ (index : Nat) (hashder : List Nat),
    keyLen ≤ (extendLoop s hash keyLen index hashder).length := by
  intro index hashder
  rw [extendLoop]
  split
  · next h =>
      exact extendLoop_length s hash keyLen (index + 1)
        (hashder ++ s.f ((index + 48) :: hash))
  · next h => omega
termination_by index hashder => keyLen - hashder.length
decreasing_by
  simp only [List.length_append, s.len]
  omega

/-- Claim C1: for every password, salt, keyLength and iterationCount ≥ 2,
`getKeyPbkdf1` returns exactly `keyLen` bytes, is deterministic, and
computes them by the spec's algorithm (`deriveSpec`): initial hash of
password ‖ salt, `(iterationCount − 1) − 1` extra SHA1 applications, a
seed digest, and 1-based-marker extension until the length reaches
`keyLen`. -/
theorem getKeyPbkdf1_correct (s : Sha1Fun) (password salt : List Nat)
    (keyLen countParam : Nat) (h : 2 ≤ countParam) :
    (getKeyPbkdf1 s password salt keyLen countParam).length = keyLen ∧
    (∀ password2 salt2, password2 = password → salt2 = salt →
      getKeyPbkdf1 s password2 salt2 keyLen countParam =
        getKeyPbkdf1 s password salt keyLen countParam) ∧
    getKeyPbkdf1 s password salt keyLen countParam =
      deriveSpec s password salt keyLen countParam := by
  refine ⟨?_, ?_, ?_⟩
  · rw [getKeyPbkdf1, List.length_take]
    exact Nat.min_eq_left (extendLoop_length s _ keyLen 1 _)
  · intro password2 salt2 hp hs
    rw [hp, hs]
  · rw [getKeyPbkdf1, deriveSpec, iterSha_eq_iterate, extendLoop_eq_specExtend]

/-- Witness for C1 at concrete inputs. -/
theorem getKeyPbkdf1_correct_witness :
    2 ≤ 100 ∧
    ((getKeyPbkdf1 sha1Dummy [1, 2] [3] 32 100).length = 32 ∧
     (∀ password2 salt2, password2 = [1, 2] → salt2 = [3] →
       getKeyPbkdf1 sha1Dummy password2 salt2 32 100 =
         getKeyPbkdf1 sha1Dummy [1, 2] [3] 32 100) ∧
     getKeyPbkdf1 sha1Dummy [1, 2] [3] 32 100 =
       deriveSpec sha1Dummy [1, 2] [3] 32 100) :=
  ⟨by decide, getKeyPbkdf1_correct sha1Dummy [1, 2] [3] 32 100 (by decide)⟩

lemma ctrXorLoop_length (ks : Nat → List Nat) (hks : ∀ c, (ks c).length = 16) :
    ∀ (counter : Nat) (data : List Nat),
    (ctrXorLoop ks counter data).length = data.length := by
  intro counter data
  rw [ctrXorLoop]
  split
  · next h => rw [h]
  · next h =>
      have hpos : data.length ≠ 0 := fun hlen => h (List.eq_nil_of_length_eq_zero hlen)
      have ih := ctrXorLoop_length ks hks (counter + 1) (data.drop 16)
      simp only [List.length_append, List.length_zipWith, List.length_take,
        List.length_drop, hks, ih]
      omega
termination_by counter data => data.length
decreasing_by
  have h1 : (List.drop 16 data).length = data.length - 16 := by simp
  have h2 : data.length ≠ 0 := fun hlen => hpos hlen
  omega

lemma ctrXorLoop_getD (ks : Nat → List Nat) (hks : ∀ c, (ks c).length = 16) :
    ∀ (counter : Nat) (data : List Nat) (j : Nat), j < data.length →
    (ctrXorLoop ks counter data).getD j 0 =
      Nat.xor (data.getD j 0) ((ks (counter + j / 16)).getD (j % 16) 0) := by
  intro counter data j hj
  have hnil : data ≠ [] := by
    intro hn; rw [hn] at hj; simp at hj
  rw [ctrXorLoop]
  rw [dif_neg hnil]
  by_cases hj16 : j < 16
  · have hzlen : (List.zipWith Nat.xor (data.take 16) (ks counter)).length =
        min 16 data.length := by
      simp only [List.length_zipWith, List.length_take, hks]
      omega
    have hjz : j < (List.zipWith Nat.xor (data.take 16) (ks counter)).length := by
      rw [hzlen]; omega
    rw [List.getD_append _ _ _ _ hjz]
    rw [List.getD_eq_getElem _ _ hjz, List.getElem_zipWith]
    rw [List.getElem_take]
    rw [← List.getD_eq_getElem data 0 hj]
    have hjk : j < (ks counter).length := by rw [hks]; omega
    rw [← List.getD_eq_getElem (ks counter) 0 hjk]
    rw [Nat.div_eq_of_lt hj16, Nat.mod_eq_of_lt hj16, Nat.add_zero]
  · obtain ⟨m, rfl⟩ : ∃ m, j = m + 16 := ⟨j - 16, by omega⟩
    have hlen16 : 16 < data.length := by omega
    have hzlen : (List.zipWith Nat.xor (data.take 16) (ks counter)).length = 16 := by
      simp only [List.length_zipWith, List.length_take, hks]
      omega
    rw [List.getD_append_right _ _ _ _ (by rw [hzlen]; omega)]
    rw [hzlen]
    rw [show m + 16 - 16 = m from by omega]
    have hdrop : m < (data.drop 16).length := by
      rw [List.length_drop]; omega
    rw [ctrXorLoop_getD ks hks (counter + 1) (data.drop 16) m hdrop]
    have hgd : (data.drop 16).getD m 0 = data.getD (m + 16) 0 := by
      rw [List.getD_eq_getElem _ _ hdrop, List.getElem_drop,
        List.getD_eq_getElem data 0 (by omega : m + 16 < data.length)]
      simp only [show 16 + m = m + 16 from by omega]
    rw [hgd]
    rw [Nat.add_mod_right]
    rw [Nat.add_div_right m (by omega : 0 < 16)]
    rw [show counter + (m / 16 + 1) = counter + 1 + m / 16 from by omega]
termination_by counter data => data.length
decreasing_by
  have h1 : (List.drop 16 data).length = data.length - 16 := by simp
  omega

lemma take16_getD (l : List Nat) (hl : 16 ≤ l.length) (m : Nat) (hm : m < 16) :
    (l.take 16).getD m 0 = l.getD m 0 := by
  have h1 : m < (l.take 16).length := by
    rw [List.length_take]; omega
  rw [List.getD_eq_getElem _ _ h1, List.getElem_take,
    List.getD_eq_getElem l 0 (by omega)]

/-- Claim C2: for every ciphertext, password and salt, `decryptAesCtrPbkdf1`
with keyLength 32 and iterationCount 100 returns a plaintext of the
ciphertext's length where byte `j` is the ciphertext byte XORed with byte
`j % 16` of the single-block encryption (under the derived key) of the
counter block for block `j / 16`: bytes 0–7 hold the 64-bit little-endian
value `j / 16 + 1` (counter starts at 1, increments once per block) and
bytes 8–15 are zero; a short final block consumes only that many keystream
bytes (the XOR stops at the data's end). -/
theorem decryptAesCtrPbkdf1_spec (s : Sha1Fun) (aes : AesPrim)
    (data password salt : List Nat) :
    (decryptAesCtrPbkdf1 s aes data password salt 32 100).length = data.length ∧
    ∀ j, j < data.length →
      (decryptAesCtrPbkdf1 s aes data password salt 32 100).getD j 0 =
        Nat.xor (data.getD j 0)
          ((aes.enc (getKeyPbkdf1 s password salt 32 100)
              ((List.range 8).map (fun b => (j / 16 + 1) / 256 ^ b % 256) ++
                List.replicate 8 0)).getD (j % 16) 0) := by
  have hks : ∀ c, ((aes.enc (getKeyPbkdf1 s password salt 32 100)
      (counterBlock c)).take 16).length = 16 := by
    intro c
    rw [List.length_take]
    exact Nat.min_eq_left (aes.len _ _)
  constructor
  · exact ctrXorLoop_length _ hks 1 data
  · intro j hj
    have hmain := ctrXorLoop_getD _ hks 1 data j hj
    rw [decryptAesCtrPbkdf1]
    rw [hmain]
    rw [take16_getD _ (aes.len _ _) _ (Nat.mod_lt j (by omega))]
    rw [Nat.add_comm 1 (j / 16)]
    rfl

/-- Witness for C2 at a concrete 17-byte input (one full and one partial block). -/
theorem decryptAesCtrPbkdf1_spec_witness :
    (decryptAesCtrPbkdf1 sha1Dummy aesDummy
        [0, 1, 2, 3, 4, 5, 6, 7, 8, 9, 10, 11, 12, 13, 14, 15, 16]
        [7] [8] 32 100).length = 17 ∧
    (16 : Nat) <
      (List.length [0, 1, 2, 3, 4, 5, 6, 7, 8, 9, 10, 11, 12, 13, 14, 15, 16]) ∧
    (decryptAesCtrPbkdf1 sha1Dummy aesDummy
        [0, 1, 2, 3, 4, 5, 6, 7, 8, 9, 10, 11, 12, 13, 14, 15, 16]
        [7] [8] 32 100).getD 16 0 =
      Nat.xor ((List.getD [0, 1, 2, 3, 4, 5, 6, 7, 8, 9, 10, 11, 12, 13, 14, 15, 16] 16 0))
        ((aesDummy.enc (getKeyPbkdf1 sha1Dummy [7] [8] 32 100)
            ((List.range 8).map (fun b => (16 / 16 + 1) / 256 ^ b % 256) ++
              List.replicate 8 0)).getD (16 % 16) 0) :=
  ⟨(decryptAesCtrPbkdf1_spec sha1Dummy aesDummy _ [7] [8]).1, by decide,
   (decryptAesCtrPbkdf1_spec sha1Dummy aesDummy _ [7] [8]).2 16 (by decide)⟩

/-- Claim C9: decryption is an involution — applying `decryptAesCtrPbkdf1`
twice with the same password, salt, keyLength and iterationCount ≥ 2
returns the original data, since each byte is XORed with a keystream byte
depending only on the parameters and the byte position. -/
theorem decryptAesCtrPbkdf1_involutive (s : Sha1Fun) (aes : AesPrim)
    (data password salt : List Nat) (keyLen countParam : Nat)
    (h : 2 ≤ countParam) :
    decryptAesCtrPbkdf1 s aes
        (decryptAesCtrPbkdf1 s aes data password salt keyLen countParam)
        password salt keyLen countParam = data := by
  have hks : ∀ c, ((aes.enc (getKeyPbkdf1 s password salt keyLen countParam)
      (counterBlock c)).take 16).length = 16 := by
    intro c
    rw [List.length_take]
    exact Nat.min_eq_left (aes.len _ _)
  simp only [decryptAesCtrPbkdf1]
  have hlen1 : (ctrXorLoop (fun c =>
      (aes.enc (getKeyPbkdf1 s password salt keyLen countParam)
        (counterBlock c)).take 16) 1 data).length = data.length :=
    ctrXorLoop_length _ hks 1 data
  apply List.ext_getElem
  · rw [ctrXorLoop_length _ hks, hlen1]
  · intro i h1 h2
    rw [← List.getD_eq_getElem _ 0 h1, ← List.getD_eq_getElem _ 0 h2]
    rw [ctrXorLoop_getD _ hks 1 _ i (by rw [hlen1]; exact h2)]
    rw [ctrXorLoop_getD _ hks 1 data i h2]
    exact Nat.xor_cancel_right _ _

/-- Witness for C9 at concrete inputs. -/
theorem decryptAesCtrPbkdf1_involutive_witness :
    2 ≤ 100 ∧
    decryptAesCtrPbkdf1 sha1Dummy aesDummy
        (decryptAesCtrPbkdf1 sha1Dummy aesDummy [10, 20, 30] [1] [2] 32 100)
        [1] [2] 32 100 = [10, 20, 30] :=
  ⟨by decide,
   decryptAesCtrPbkdf1_involutive sha1Dummy aesDummy [10, 20, 30] [1] [2] 32 100
     (by decide)⟩

/-! ## Asset manager model

The `AssetManager` class state (`bundleMap`, `imageMap`) is modelled as an
explicit state record threaded through the operations.  External
collaborators are oracles in an `Env` record: the `@arkntools/unity-js`
parser (`loadAssetBundle`), the `js-md5` content hash, `TextDecoder`,
`TextEncoder`, `URL.createObjectURL` and the image-converter pool's
bitmap-to-PNG conversion.  `parserCalls` and `decodeLog` are ghost
instrumentation counting invocations of the parser and of the per-key
image-decode routine.  The `TrackedPromise` wrapper (`@/utils/trackedPromise`,
not under src/) is modelled from the spec (§2, §4.2): a deferred value with a
synchronous settledness query; entries stored in `imageMap` are modelled at
their settled values, `none` being the undefined/failure sentinel. -/

/-- The `AssetType` variants relevant to the manager (from the external
`@arkntools/unity-js` enum), plus `Other` for every remaining variant. -/
inductive AssetTy where
  | TextAsset
  | Sprite
  | SpriteAtlas
  | Texture2D
  | Other
deriving DecidableEq

/-- The `AssetType[type]` reverse enum lookup used for the `type` tag. -/
def typeName : AssetTy → String
  | .TextAsset => "TextAsset"
  | .Sprite => "Sprite"
  | .SpriteAtlas => "SpriteAtlas"
  | .Texture2D => "Texture2D"
  | .Other => ""

/-- Membership in `showAssetType` — the displayable subset. -/
def showAsset : AssetTy → Bool
  | .TextAsset | .Sprite | .SpriteAtlas | .Texture2D => true
  | .Other => false

/-- Membership in `canExportAssetType` — the exportable subset (no SpriteAtlas). -/
def canExport : AssetTy → Bool
  | .TextAsset | .Sprite | .Texture2D => true
  | .SpriteAtlas | .Other => false

/-- One parsed asset object: display name, type tag, `pathId`, byte size,
its `dump()` value (abstracted to a string), the `data` bytes (used by
TextAsset), and the optional image bitmap returned by `getImageBitmap()`
(bitmaps abstracted to `Nat` handles). -/
structure AssetObject where
  name : String
  type : AssetTy
  pathId : Int
  size : Nat
  dump : String
  data : List Nat
  bitmap : Option Nat
deriving DecidableEq

/-- A parsed bundle: its ordered objects and the `containerMap` from
`pathId` to container path. -/
structure Bundle where
  objects : List AssetObject
  containerMap : List (Int × String)
deriving DecidableEq

/-- External collaborators of the manager, as oracles. -/
structure Env where
  md5 : List Nat → String
  parse : List Nat → Except String Bundle
  textDecode : List Nat → String
  urlOf : List Nat → String
  convert : Nat → Option (List Nat)
  utf8 : String → List Nat
  envIndex : Nat
  sha1 : Sha1Fun
  aes : AesPrim

/-- The manager's mutable state: `bundleMap` (content hash → bundle) and
`imageMap` (asset key → settled image entry, `none` = failure sentinel,
`some buf` = encoded PNG bytes), plus ghost instrumentation: the number of
parser invocations and the log of keys whose image-decode routine ran. -/
structure MState where
  bundleMap : List (String × Bundle)
  imageMap : List (String × Option (List Nat))
  parserCalls : Nat
  decodeLog : List String
deriving DecidableEq

/-- Model of `getAssetKey(fileId, pathId)` — the template string key. -/
def getAssetKey (fileId : String) (pathId : Int) : String :=
  fileId ++ "_" ++ toString pathId

/-- Model of `getAssetObj(fileId, pathId)` — bundle lookup then object lookup. -/
def getAssetObj (st : MState) (fileId : String) (pathId : Int) :
    Option AssetObject :=
  match List.lookup fileId st.bundleMap with
  | none => none
  | some b => b.objects.find? (fun o => o.pathId = pathId)

/-- Model of `getLegalFileName(name)` — strip the characters `/\:*?"<>|`. -/
def getLegalFileName (name : String) : String :=
  ⟨name.data.filter (fun c =>
    !(c = '/' ∨ c = '\\' ∨ c = ':' ∨ c = '*' ∨ c = '?' ∨ c = '"' ∨
      c = '<' ∨ c = '>' ∨ c = '|' : Bool))⟩

/-- The external-facing projection of one object (`AssetInfo`).  `data` is
the tri-state field: `none` = not loaded (`undefined`), `some none` = load
failed (`null`), `some (some s)` = loaded value. -/
structure AssetInfo where
  key : String
  fileId : String
  fileName : String
  name : String
  container : String
  type : String
  pathId : Int
  size : Nat
  dump : String
  data : Option (Option String)
  search : String
deriving DecidableEq

/-- Model of `getAssetData(obj, key)`: TextAssets decode immediately; image types
return the cached image's URL (or `null` for a settled failure) only when
an entry is already present, and stay `undefined` otherwise. -/
def getAssetData (env : Env) (st : MState) (o : AssetObject) (key : String) :
    Option (Option String) :=
  match o.type with
  | .TextAsset => some (some (env.textDecode o.data))
  | .Sprite | .Texture2D =>
    match List.lookup key st.imageMap with
    | some (some buf) => some (some (env.urlOf buf))
    | some none => some none
    | none => none
  | _ => none

/-- The per-object projection performed by `loadFile`: filter to the
displayable types and build one `AssetInfo` per object. -/
def projectInfos (env : Env) (st : MState) (fileId fileName : String)
    (b : Bundle) : List AssetInfo :=
  (b.objects.filter (fun o => showAsset o.type)).map (fun o =>
    let key := getAssetKey fileId o.pathId
    { key, fileId, fileName,
      name := o.name,
      container := (List.lookup o.pathId b.containerMap).getD "",
      type := typeName o.type,
      pathId := o.pathId,
      size := o.size,
      dump := o.dump,
      data := getAssetData env st o key,
      search := o.name.toLower })

/-- Model of `loadFile(file, options)` (src/workers/assetManager.ts lines
395–424): hash the bytes, reuse the cached bundle for that hash if present,
otherwise invoke the parser (which may fail) and store the result; then
project the displayable objects. -/
def loadFile (env : Env) (st : MState) (name : String) (bytes : List Nat) :
    MState × Except String (List AssetInfo) :=
  let md5v := env.md5 bytes
  match List.lookup md5v st.bundleMap with
  | some b => (st, .ok (projectInfos env st md5v name b))
  | none =>
    match env.parse bytes with
    | .error e => ({ st with parserCalls := st.parserCalls + 1 }, .error e)
    | .ok b =>
      ({ st with
          bundleMap := (md5v, b) :: st.bundleMap,
          parserCalls := st.parserCalls + 1 },
        .ok (projectInfos env st md5v name b))

/-- One input file of a `loadFiles` batch. -/
structure MFile where
  name : String
  bytes : List Nat
deriving DecidableEq

/-- One `{name, error}` entry of the `errors` aggregate. -/
structure FileLoadingError where
  name : String
  error : String
deriving DecidableEq

/-- The `{errors, infos, successNum}` aggregate returned by `loadFiles`. -/
structure LoadResult where
  errors : List FileLoadingError
  infos : List AssetInfo
  successNum : Nat
deriving DecidableEq

/-- The `envIndex === 2 && name.endsWith('.ab')` branch of `loadFiles`:
manually decrypt the raw bytes with password `"System.Byte[]"` and the
file name minus its `.ab` suffix as salt, keyLength 32, iterationCount
100. -/
def preprocessBytes (env : Env) (name : String) (bytes : List Nat) : List Nat :=
  if env.envIndex = 2 ∧ name.endsWith ".ab" then
    decryptAesCtrPbkdf1 env.sha1 env.aes bytes (env.utf8 "System.Byte[]")
      (env.utf8 (name.dropRight 3)) 32 100
  else bytes

/-- Model of `loadFiles(files, options, onProgress)` (src/workers/
assetManager.ts lines 174–221): strictly sequential per-file processing;
a per-file failure is recorded as a `{name, error}` entry and the batch
continues; `successNum` counts files whose projection was non-empty. -/
def loadFiles (env : Env) : MState → List MFile → MState × LoadResult
  | st, [] => (st, ⟨[], [], 0⟩)
  | st, f :: rest =>
    let p := loadFile env st f.name (preprocessBytes env f.name f.bytes)
    let q := loadFiles env p.1 rest
    match p.2 with
    | .error e => (q.1, ⟨⟨f.name, e⟩ :: q.2.errors, q.2.infos, q.2.successNum⟩)
    | .ok infos =>
      if infos.length = 0 then q
      else (q.1, ⟨q.2.errors, infos ++ q.2.infos, q.2.successNum + 1⟩)

/-- The value the image-decode routine (the async IIFE in `loadImage`,
through `getAssetObjPNG`) would settle to for a given object: `none` when
the object is missing or not an image type (no entry is even created), and
`some v` when an entry is created, `v` being the settled entry value —
`none` (the failure sentinel) when no bitmap or no encoded buffer is
produced, `some buf` otherwise. -/
def imgCandidate (env : Env) (st : MState) (fileId : String) (pathId : Int) :
    Option (Option (List Nat)) :=
  match getAssetObj st fileId pathId with
  | none => none
  | some obj =>
    if obj.type = AssetTy.Sprite ∨ obj.type = AssetTy.Texture2D then
      some (match obj.bitmap with
            | none => none
            | some bm => env.convert bm)
    else none

/-- Model of `loadImage(fileId, pathId)` (src/workers/assetManager.ts lines
361–383): return the already-published entry when present; otherwise return
absent for missing/non-image objects, else run the decode routine once,
publish the settled entry under the key and return it.  The returned
`Option (Option (List Nat))` is `none` for absent (no entry), and
`some entry` for the entry's settled value. -/
def loadImage (env : Env) (st : MState) (fileId : String) (pathId : Int) :
    MState × Option (Option (List Nat)) :=
  let key := getAssetKey fileId pathId
  match List.lookup key st.imageMap with
  | some e => (st, some e)
  | none =>
    match imgCandidate env st fileId pathId with
    | none => (st, none)
    | some v =>
      ({ st with
          imageMap := (key, v) :: st.imageMap,
          decodeLog := key :: st.decodeLog },
        some v)

/-- Model of `getImageUrl(fileId, pathId)` — the URL of the loaded image, absent on
failure or for non-image keys. -/
def getImageUrl (env : Env) (st : MState) (fileId : String) (pathId : Int) :
    MState × Option String :=
  let p := loadImage env st fileId pathId
  (p.1,
    match p.2 with
    | some (some buf) => some (env.urlOf buf)
    | _ => none)

/-- Number of times the image-decode routine ran for `key`. -/
def decodeCount (st : MState) (key : String) : Nat :=
  st.decodeLog.count key

/-- Run a sequence of `loadImage` requests, recording each request together
with its returned value. -/
def runImages (env : Env) :
    MState → List (String × Int) →
      MState × List ((String × Int) × Option (Option (List Nat)))
  | st, [] => (st, [])
  | st, r :: rest =>
    let p := loadImage env st r.1 r.2
    let q := runImages env p.1 rest
    (q.1, (r, p.2) :: q.2)

/-- The values returned to the requests for one particular (fileId, pathId)
key within a recorded trace. -/
def outputsFor (tr : List ((String × Int) × Option (Option (List Nat))))
    (fileId : String) (pathId : Int) : List (Option (Option (List Nat))) :=
  (tr.filter (fun p => decide (p.1 = (fileId, pathId)))).map Prod.snd

/-- The exported `{name, type, data}` record of `exportAsset`. -/
structure ExportedFile where
  name : String
  type : String
  data : List Nat
deriving DecidableEq

/-- Model of `exportAsset(fileId, pathId)` (src/workers/assetManager.ts
lines 227–253): absent for missing objects and non-exportable types; the
raw `obj.data` bytes as `.txt` for TextAsset; the encoded image bytes as
`.png` for Sprite/Texture2D when the image loads, absent otherwise. -/
def exportAsset (env : Env) (st : MState) (fileId : String) (pathId : Int) :
    MState × Option ExportedFile :=
  match getAssetObj st fileId pathId with
  | none => (st, none)
  | some obj =>
    if canExport obj.type then
      match obj.type with
      | .TextAsset =>
        (st, some ⟨getLegalFileName obj.name ++ ".txt", "text/plain", obj.data⟩)
      | .Sprite | .Texture2D =>
        let p := loadImage env st fileId pathId
        match p.2 with
        | some (some buf) =>
          (p.1, some ⟨getLegalFileName obj.name ++ ".png", "image/png", buf⟩)
        | _ => (p.1, none)
      | _ => (st, none)
    else (st, none)

/-- Modelled from the spec: the `ExportGroupMethod` enum lives in
`@/types/export`, which is not under src/; its four grouping policies are
taken from §4.4 (none, byTypeName, bySourceFile, byContainerPath). -/
inductive ExportGroupMethod where
  | NONE
  | TYPE_NAME
  | SOURCE_FILE_NAME
  | CONTAINER_PATH
deriving DecidableEq

/-- One value of the `objMap` built by `exportAssets`: the selection's
source file name and container path plus the object found for its key. -/
structure ObjMapEntry where
  obj : Option AssetObject
  fileName : String
  container : String
deriving DecidableEq

/-- Model of the `getObjPath(key, ext)` closure of `exportAssets`
(src/workers/assetManager.ts lines 268–284), with the map lookup's result
passed in: empty string when the entry or its object is missing; otherwise
the switch over the grouping policy, where `CONTAINER_PATH` returns the
container verbatim if non-empty and falls through to the flat `NONE`
naming otherwise. -/
def getObjPath (groupMethod : ExportGroupMethod) (entry : Option ObjMapEntry)
    (ext : String) : String :=
  match entry with
  | none => ""
  | some d =>
    match d.obj with
    | none => ""
    | some obj =>
      let legalName := getLegalFileName obj.name
      match groupMethod with
      | .CONTAINER_PATH =>
        if d.container ≠ "" then d.container else legalName ++ "." ++ ext
      | .NONE => legalName ++ "." ++ ext
      | .TYPE_NAME => typeName obj.type ++ "/" ++ legalName ++ "." ++ ext
      | .SOURCE_FILE_NAME => d.fileName ++ "/" ++ legalName ++ "." ++ ext

/-- Model of `clear()` — drop the bundle store and the image index. -/
def clear (st : MState) : MState :=
  { st with bundleMap := [], imageMap := [] }

/-! ## Concrete fixtures for witnesses and counterexamples -/

/-- A TextAsset object. -/
def objText : AssetObject := ⟨"t", .TextAsset, 1, 3, "", [104, 105], none⟩

/-- A Sprite whose `getImageBitmap()` yields nothing (decode failure). -/
def objSprite : AssetObject := ⟨"s", .Sprite, 2, 4, "", [], none⟩

/-- A Sprite with a bitmap that converts successfully. -/
def objSprite2 : AssetObject := ⟨"s2", .Sprite, 3, 4, "", [], some 5⟩

/-- A SpriteAtlas object. -/
def objAtlas : AssetObject := ⟨"a", .SpriteAtlas, 4, 0, "", [], none⟩

/-- An object of a non-displayable type. -/
def objOther : AssetObject := ⟨"o", .Other, 5, 0, "", [], none⟩

/-- A bundle holding the four displayable fixtures. -/
def bundleW : Bundle := ⟨[objText, objSprite, objSprite2, objAtlas], []⟩

/-- A bundle that parses fine but has no displayable objects. -/
def bundleNoShow : Bundle := ⟨[objOther], []⟩

/-- A concrete environment for witnesses. -/
def envW : Env where
  md5 := fun _ => "h"
  parse := fun _ => .ok bundleW
  textDecode := fun _ => "hi"
  urlOf := fun _ => "url"
  convert := fun bm => if bm = 5 then some [9] else none
  utf8 := fun _ => []
  envIndex := 0
  sha1 := sha1Dummy
  aes := aesDummy

/-- An environment whose parser always fails. -/
def envFail : Env where
  md5 := fun _ => "h"
  parse := fun _ => .error "boom"
  textDecode := fun _ => ""
  urlOf := fun _ => ""
  convert := fun _ => none
  utf8 := fun _ => []
  envIndex := 0
  sha1 := sha1Dummy
  aes := aesDummy

/-- An environment whose parser returns a bundle without displayable
objects. -/
def envNoShow : Env where
  md5 := fun _ => "h"
  parse := fun _ => .ok bundleNoShow
  textDecode := fun _ => ""
  urlOf := fun _ => ""
  convert := fun _ => none
  utf8 := fun _ => []
  envIndex := 0
  sha1 := sha1Dummy
  aes := aesDummy

/-- The empty manager state. -/
def st0 : MState := ⟨[], [], 0, []⟩

/-- A state whose bundle store already holds `bundleW` under hash "h". -/
def stW : MState := ⟨[("h", bundleW)], [], 0, []⟩

/-! ## Cache-dedup claim (C3) -/

lemma projectInfos_fileId (env : Env) (st : MState) (fileId fileName : String)
    (b : Bundle) : ∀ i ∈ projectInfos env st fileId fileName b, i.fileId = fileId := by
  intro i hi
  simp only [projectInfos, List.mem_map] at hi
  obtain ⟨o, _, rfl⟩ := hi
  rfl

/-- Claim C3: two `loadFile` calls with identical bytes (under any two file
names) hash to the same `fileId`; the first parses and stores the bundle,
the second reuses the cached bundle unchanged and does not invoke the
parser again; both return AssetInfo entries whose `fileId` is the shared
content hash. -/
theorem loadFile_dedup (env : Env) (st : MState) (name1 name2 : String)
    (bytes : List Nat) (B : Bundle)
    (hlk : List.lookup (env.md5 bytes) st.bundleMap = none)
    (hp : env.parse bytes = .ok B) :
    (loadFile env st name1 bytes).1.parserCalls = st.parserCalls + 1 ∧
    (loadFile env (loadFile env st name1 bytes).1 name2 bytes).1.parserCalls =
      (loadFile env st name1 bytes).1.parserCalls ∧
    (loadFile env (loadFile env st name1 bytes).1 name2 bytes).1.bundleMap =
      (loadFile env st name1 bytes).1.bundleMap ∧
    List.lookup (env.md5 bytes) (loadFile env st name1 bytes).1.bundleMap =
      some B ∧
    (∃ infos1, (loadFile env st name1 bytes).2 = .ok infos1 ∧
      ∀ i ∈ infos1, i.fileId = env.md5 bytes) ∧
    (∃ infos2,
      (loadFile env (loadFile env st name1 bytes).1 name2 bytes).2 = .ok infos2 ∧
      ∀ i ∈ infos2, i.fileId = env.md5 bytes) := by
  have h1 : loadFile env st name1 bytes =
      ({ st with
          bundleMap := (env.md5 bytes, B) :: st.bundleMap,
          parserCalls := st.parserCalls + 1 },
        .ok (projectInfos env st (env.md5 bytes) name1 B)) := by
    simp only [loadFile, hlk, hp]
  have h2 : List.lookup (env.md5 bytes)
      ((env.md5 bytes, B) :: st.bundleMap) = some B := by
    simp [List.lookup]
  have h3 : loadFile env (loadFile env st name1 bytes).1 name2 bytes =
      ((loadFile env st name1 bytes).1,
        .ok (projectInfos env (loadFile env st name1 bytes).1
          (env.md5 bytes) name2 B)) := by
    rw [h1]
    simp only [loadFile, h2]
  refine ⟨by rw [h1], by rw [h3], by rw [h3], by rw [h1]; exact h2, ?_, ?_⟩
  · exact ⟨_, by rw [h1], projectInfos_fileId env st (env.md5 bytes) name1 B⟩
  · exact ⟨_, by rw [h3], projectInfos_fileId env _ (env.md5 bytes) name2 B⟩

/-- Witness for C3 at concrete inputs: fresh state, two file names, same
bytes. -/
theorem loadFile_dedup_witness :
    List.lookup (envW.md5 [1]) st0.bundleMap = none ∧
    envW.parse [1] = .ok bundleW ∧
    ((loadFile envW st0 "a.bin" [1]).1.parserCalls = st0.parserCalls + 1 ∧
     (loadFile envW (loadFile envW st0 "a.bin" [1]).1 "b.bin" [1]).1.parserCalls =
       (loadFile envW st0 "a.bin" [1]).1.parserCalls ∧
     (loadFile envW (loadFile envW st0 "a.bin" [1]).1 "b.bin" [1]).1.bundleMap =
       (loadFile envW st0 "a.bin" [1]).1.bundleMap ∧
     List.lookup (envW.md5 [1]) (loadFile envW st0 "a.bin" [1]).1.bundleMap =
       some bundleW ∧
     (∃ infos1, (loadFile envW st0 "a.bin" [1]).2 = .ok infos1 ∧
       ∀ i ∈ infos1, i.fileId = envW.md5 [1]) ∧
     (∃ infos2,
       (loadFile envW (loadFile envW st0 "a.bin" [1]).1 "b.bin" [1]).2 = .ok infos2 ∧
       ∀ i ∈ infos2, i.fileId = envW.md5 [1])) :=
  ⟨rfl, rfl, loadFile_dedup envW st0 "a.bin" "b.bin" [1] bundleW rfl rfl⟩

/-! ## Batch loading claims (C7, C10) -/

lemma loadFiles_append (env : Env) (xs : List MFile) :
    ∀ (st : MState) (ys : List MFile),
    loadFiles env st (xs ++ ys) =
      ((loadFiles env (loadFiles env st xs).1 ys).1,
       ⟨(loadFiles env st xs).2.errors ++
          (loadFiles env (loadFiles env st xs).1 ys).2.errors,
        (loadFiles env st xs).2.infos ++
          (loadFiles env (loadFiles env st xs).1 ys).2.infos,
        (loadFiles env st xs).2.successNum +
          (loadFiles env (loadFiles env st xs).1 ys).2.successNum⟩) := by
  induction xs with
  | nil =>
    intro st ys
    simp [loadFiles]
  | cons f rest ih =>
    intro st ys
    simp only [List.cons_append, loadFiles, List.append_eq]
    rw [ih]
    rcases hp : (loadFile env st f.name (preprocessBytes env f.name f.bytes)).2 with
      e | infos
    · simp only [hp]
      simp [Prod.mk.injEq, LoadResult.mk.injEq]
    · simp only [hp]
      by_cases hlen : infos.length = 0
      · simp [hlen]
      · simp only [hlen, if_false]
        simp [Prod.mk.injEq, LoadResult.mk.injEq, List.append_assoc]
        omega

/-- Claim C7: `loadFiles` processes the list sequentially; a file whose
processing fails with error `e` contributes exactly one `{name, e}` entry
to `errors` while every file after it is still processed from the
(unchanged by the failure) state, and the call returns the aggregate
`{errors, infos, successNum}` — it is a total function and never rejects
because of per-file failures. -/
theorem loadFiles_error_isolated (env : Env) (st : MState)
    (xs ys : List MFile) (bad : MFile) (e : String)
    (hfail : (loadFile env (loadFiles env st xs).1 bad.name
        (preprocessBytes env bad.name bad.bytes)).2 = .error e) :
    loadFiles env st (xs ++ bad :: ys) =
      ((loadFiles env
          (loadFile env (loadFiles env st xs).1 bad.name
            (preprocessBytes env bad.name bad.bytes)).1 ys).1,
       ⟨(loadFiles env st xs).2.errors ++ ⟨bad.name, e⟩ ::
          (loadFiles env
            (loadFile env (loadFiles env st xs).1 bad.name
              (preprocessBytes env bad.name bad.bytes)).1 ys).2.errors,
        (loadFiles env st xs).2.infos ++
          (loadFiles env
            (loadFile env (loadFiles env st xs).1 bad.name
              (preprocessBytes env bad.name bad.bytes)).1 ys).2.infos,
        (loadFiles env st xs).2.successNum +
          (loadFiles env
            (loadFile env (loadFiles env st xs).1 bad.name
              (preprocessBytes env bad.name bad.bytes)).1 ys).2.successNum⟩) := by
  rw [loadFiles_append]
  have hmid : loadFiles env (loadFiles env st xs).1 (bad :: ys) =
      ((loadFiles env
          (loadFile env (loadFiles env st xs).1 bad.name
            (preprocessBytes env bad.name bad.bytes)).1 ys).1,
       ⟨⟨bad.name, e⟩ ::
          (loadFiles env
            (loadFile env (loadFiles env st xs).1 bad.name
              (preprocessBytes env bad.name bad.bytes)).1 ys).2.errors,
        (loadFiles env
            (loadFile env (loadFiles env st xs).1 bad.name
              (preprocessBytes env bad.name bad.bytes)).1 ys).2.infos,
        (loadFiles env
            (loadFile env (loadFiles env st xs).1 bad.name
              (preprocessBytes env bad.name bad.bytes)).1 ys).2.successNum⟩) := by
    simp only [loadFiles, hfail]
  rw [hmid]

/-- Witness for C7: a failing middle file between two good ones. -/
theorem loadFiles_error_isolated_witness :
    (loadFile envFail (loadFiles envFail st0 []).1 "bad.bin"
        (preprocessBytes envFail "bad.bin" [2])).2 = .error "boom" ∧
    loadFiles envFail st0 ([] ++ ⟨"bad.bin", [2]⟩ :: [⟨"c.bin", [3]⟩]) =
      ((loadFiles envFail
          (loadFile envFail (loadFiles envFail st0 []).1 "bad.bin"
            (preprocessBytes envFail "bad.bin" [2])).1 [⟨"c.bin", [3]⟩]).1,
       ⟨(loadFiles envFail st0 []).2.errors ++ ⟨"bad.bin", "boom"⟩ ::
          (loadFiles envFail
            (loadFile envFail (loadFiles envFail st0 []).1 "bad.bin"
              (preprocessBytes envFail "bad.bin" [2])).1 [⟨"c.bin", [3]⟩]).2.errors,
        (loadFiles envFail st0 []).2.infos ++
          (loadFiles envFail
            (loadFile envFail (loadFiles envFail st0 []).1 "bad.bin"
              (preprocessBytes envFail "bad.bin" [2])).1 [⟨"c.bin", [3]⟩]).2.infos,
        (loadFiles envFail st0 []).2.successNum +
          (loadFiles envFail
            (loadFile envFail (loadFiles envFail st0 []).1 "bad.bin"
              (preprocessBytes envFail "bad.bin" [2])).1 [⟨"c.bin", [3]⟩]).2.successNum⟩) :=
  ⟨rfl, loadFiles_error_isolated envFail st0 [] [⟨"c.bin", [3]⟩] ⟨"bad.bin", [2]⟩
    "boom" rfl⟩

/-- Claim C10: a file that parses without error but whose bundle holds no
object of the displayable types contributes nothing: no error entry, no
infos, and no `successNum` increment. -/
theorem loadFiles_no_displayable (env : Env) (st : MState) (f : MFile)
    (B : Bundle)
    (hlk : List.lookup (env.md5 (preprocessBytes env f.name f.bytes))
      st.bundleMap = none)
    (hp : env.parse (preprocessBytes env f.name f.bytes) = .ok B)
    (hshow : B.objects.filter (fun o => showAsset o.type) = []) :
    (loadFiles env st [f]).2 = ⟨[], [], 0⟩ := by
  have hproj : projectInfos env st (env.md5 (preprocessBytes env f.name f.bytes))
      f.name B = [] := by
    simp [projectInfos, hshow]
  have h1 : loadFile env st f.name (preprocessBytes env f.name f.bytes) =
      ({ st with
          bundleMap := (env.md5 (preprocessBytes env f.name f.bytes), B) ::
            st.bundleMap,
          parserCalls := st.parserCalls + 1 },
        .ok []) := by
    simp only [loadFile, hlk, hp, hproj]
  simp only [loadFiles, h1]
  rfl

/-- Witness for C10: a parseable file with only non-displayable objects. -/
theorem loadFiles_no_displayable_witness :
    List.lookup (envNoShow.md5 (preprocessBytes envNoShow "f.bin" [1]))
      st0.bundleMap = none ∧
    envNoShow.parse (preprocessBytes envNoShow "f.bin" [1]) = .ok bundleNoShow ∧
    bundleNoShow.objects.filter (fun o => showAsset o.type) = [] ∧
    (loadFiles envNoShow st0 [⟨"f.bin", [1]⟩]).2 = ⟨[], [], 0⟩ :=
  ⟨rfl, rfl, by decide,
   loadFiles_no_displayable envNoShow st0 ⟨"f.bin", [1]⟩ bundleNoShow rfl rfl
     (by decide)⟩

/-! ## Image cache claims (C4, C6) -/

lemma lookup_cons_ne {α : Type} (k k' : String) (v : α)
    (l : List (String × α)) (h : k' ≠ k) :
    List.lookup k ((k', v) :: l) = List.lookup k l := by
  have hb : (k == k') = false := beq_eq_false_iff_ne.mpr (Ne.symm h)
  simp [List.lookup, hb]

lemma loadImage_bundleMap (env : Env) (st : MState) (fid : String) (pid : Int) :
    (loadImage env st fid pid).1.bundleMap = st.bundleMap := by
  rcases hE : List.lookup (getAssetKey fid pid) st.imageMap with _ | e
  · rcases hC : imgCandidate env st fid pid with _ | v <;>
      simp [loadImage, hE, hC]
  · simp [loadImage, hE]

lemma loadImage_other_key (env : Env) (st : MState) (r : String × Int)
    (k : String) (hk : getAssetKey r.1 r.2 ≠ k) :
    List.lookup k (loadImage env st r.1 r.2).1.imageMap =
      List.lookup k st.imageMap ∧
    (loadImage env st r.1 r.2).1.decodeLog.count k = st.decodeLog.count k := by
  rcases hE : List.lookup (getAssetKey r.1 r.2) st.imageMap with _ | e
  · rcases hC : imgCandidate env st r.1 r.2 with _ | v
    · simp [loadImage, hE, hC]
    · constructor
      · simp only [loadImage, hE, hC]
        exact lookup_cons_ne k _ v st.imageMap hk
      · simp only [loadImage, hE, hC]
        exact List.count_cons_of_ne (fun hkk => hk hkk.symm) _
  · simp [loadImage, hE]

lemma imgCandidate_congr (env : Env) (st st' : MState) (fid : String)
    (pid : Int) (h : st'.bundleMap = st.bundleMap) :
    imgCandidate env st' fid pid = imgCandidate env st fid pid := by
  simp [imgCandidate, getAssetObj, h]

lemma outputsFor_cons (x : (String × Int) × Option (Option (List Nat)))
    (tr : List ((String × Int) × Option (Option (List Nat))))
    (fid : String) (pid : Int) :
    outputsFor (x :: tr) fid pid =
      if x.1 = (fid, pid) then x.2 :: outputsFor tr fid pid
      else outputsFor tr fid pid := by
  by_cases h : x.1 = (fid, pid) <;> simp [outputsFor, List.filter_cons, h]

lemma runImages_cons (env : Env) (r : String × Int)
    (rest : List (String × Int)) (st : MState) :
    runImages env st (r :: rest) =
      ((runImages env (loadImage env st r.1 r.2).1 rest).1,
       (r, (loadImage env st r.1 r.2).2) ::
         (runImages env (loadImage env st r.1 r.2).1 rest).2) := rfl

lemma runImages_stable (env : Env) (reqs : List (String × Int)) :
    ∀ (st : MState) (fid : String) (pid : Int) (e : Option (List Nat)),
    (∀ r ∈ reqs, getAssetKey r.1 r.2 = getAssetKey fid pid → r = (fid, pid)) →
    List.lookup (getAssetKey fid pid) st.imageMap = some e →
    List.lookup (getAssetKey fid pid) (runImages env st reqs).1.imageMap =
      some e ∧
    (runImages env st reqs).1.decodeLog.count (getAssetKey fid pid) =
      st.decodeLog.count (getAssetKey fid pid) ∧
    ∀ o ∈ outputsFor (runImages env st reqs).2 fid pid, o = some e := by
  induction reqs with
  | nil =>
    intro st fid pid e _ hlk
    exact ⟨hlk, rfl, by simp [outputsFor, runImages]⟩
  | cons r rest ih =>
    intro st fid pid e hcol hlk
    rw [runImages_cons, outputsFor_cons]
    by_cases hr : r = (fid, pid)
    · have hload : loadImage env st r.1 r.2 = (st, some e) := by
        rw [hr]
        simp [loadImage, hlk]
      rw [hload]
      have hrec := ih st fid pid e (fun x hx => hcol x (by simp [hx])) hlk
      refine ⟨hrec.1, hrec.2.1, ?_⟩
      rw [if_pos (by rw [hr])]
      intro o ho
      rcases List.mem_cons.mp ho with h1 | h1
      · exact h1
      · exact hrec.2.2 o h1
    · have hkey : getAssetKey r.1 r.2 ≠ getAssetKey fid pid := by
        intro h
        exact hr (hcol r (by simp) h)
      have hother := loadImage_other_key env st r (getAssetKey fid pid) hkey
      have hrec := ih (loadImage env st r.1 r.2).1 fid pid e
        (fun x hx => hcol x (by simp [hx])) (by rw [hother.1]; exact hlk)
      refine ⟨hrec.1, by rw [hrec.2.1, hother.2], ?_⟩
      rw [if_neg (by exact hr)]
      exact hrec.2.2

/-- Claim C4: starting from a state where a key has no published image
entry and its decode routine never ran, any sequence of `loadImage`
requests (whose other requests do not collide with the key) runs the
decode routine at most once for that key — exactly once when an entry got
published, never otherwise — and every request for that key receives the
same result, the settled value determined by the object (published before
any other request can intervene, so later requests join it rather than
re-decode). -/
theorem loadImage_once_per_key (env : Env) (reqs : List (String × Int))
    (st : MState) (fid : String) (pid : Int)
    (hcol : ∀ r ∈ reqs, getAssetKey r.1 r.2 = getAssetKey fid pid →
      r = (fid, pid))
    (h1 : List.lookup (getAssetKey fid pid) st.imageMap = none)
    (h2 : decodeCount st (getAssetKey fid pid) = 0) :
    decodeCount (runImages env st reqs).1 (getAssetKey fid pid) =
      (if (List.lookup (getAssetKey fid pid)
          (runImages env st reqs).1.imageMap).isSome then 1 else 0) ∧
    ∀ o ∈ outputsFor (runImages env st reqs).2 fid pid,
      o = imgCandidate env st fid pid := by
  induction reqs generalizing st with
  | nil =>
    refine ⟨?_, by simp [outputsFor, runImages]⟩
    simp only [runImages, h1, Option.isSome_none, if_false]
    exact h2
  | cons r rest ih =>
    rw [runImages_cons, outputsFor_cons]
    by_cases hr : r = (fid, pid)
    · rcases hC : imgCandidate env st fid pid with _ | v
      · have hload : loadImage env st r.1 r.2 = (st, none) := by
          rw [hr]
          simp [loadImage, h1, hC]
        rw [hload]
        have hrec := ih st (fun x hx => hcol x (by simp [hx])) h1 h2
        rw [hC] at hrec
        refine ⟨hrec.1, ?_⟩
        rw [if_pos (by rw [hr])]
        intro o ho
        rcases List.mem_cons.mp ho with hcase | hcase
        · exact hcase
        · exact hrec.2 o hcase
      · have hload : loadImage env st r.1 r.2 =
            ({ st with
                imageMap := (getAssetKey fid pid, v) :: st.imageMap,
                decodeLog := getAssetKey fid pid :: st.decodeLog },
              some v) := by
          rw [hr]
          simp [loadImage, h1, hC]
        have hlk2 : List.lookup (getAssetKey fid pid)
            ((getAssetKey fid pid, v) :: st.imageMap) = some v := by
          simp [List.lookup]
        have hstab := runImages_stable env rest
          ({ st with
              imageMap := (getAssetKey fid pid, v) :: st.imageMap,
              decodeLog := getAssetKey fid pid :: st.decodeLog }) fid pid v
          (fun x hx => hcol x (by simp [hx])) hlk2
        rw [hload]
        constructor
        · show (runImages env
              ({ st with
                  imageMap := (getAssetKey fid pid, v) :: st.imageMap,
                  decodeLog := getAssetKey fid pid :: st.decodeLog })
              rest).1.decodeLog.count (getAssetKey fid pid) = _
          rw [hstab.2.1, hstab.1]
          simp only [Option.isSome_some, if_true, List.count_cons_self]
          have h2' : st.decodeLog.count (getAssetKey fid pid) = 0 := h2
          rw [h2']
        · rw [if_pos (by rw [hr])]
          intro o ho
          rcases List.mem_cons.mp ho with hcase | hcase
          · exact hcase
          · exact hstab.2.2 o hcase
    · have hkey : getAssetKey r.1 r.2 ≠ getAssetKey fid pid := by
        intro h
        exact hr (hcol r (by simp) h)
      have hother := loadImage_other_key env st r (getAssetKey fid pid) hkey
      have hbm := loadImage_bundleMap env st r.1 r.2
      have hcand := imgCandidate_congr env st (loadImage env st r.1 r.2).1
        fid pid hbm
      have hrec := ih (loadImage env st r.1 r.2).1
        (fun x hx => hcol x (by simp [hx]))
        (by rw [hother.1]; exact h1)
        (by
          show (loadImage env st r.1 r.2).1.decodeLog.count _ = 0
          rw [hother.2]; exact h2)
      refine ⟨hrec.1, ?_⟩
      rw [if_neg (by exact hr)]
      rw [hcand] at hrec
      exact hrec.2

/-- Witness for C4: two requests for the same Sprite key starting from the
populated fixture state. -/
theorem loadImage_once_per_key_witness :
    (∀ r ∈ [("h", (3 : Int)), ("h", (3 : Int))],
      getAssetKey r.1 r.2 = getAssetKey "h" 3 → r = ("h", 3)) ∧
    List.lookup (getAssetKey "h" 3) stW.imageMap = none ∧
    decodeCount stW (getAssetKey "h" 3) = 0 ∧
    (decodeCount (runImages envW stW [("h", 3), ("h", 3)]).1
        (getAssetKey "h" 3) =
      (if (List.lookup (getAssetKey "h" 3)
          (runImages envW stW [("h", 3), ("h", 3)]).1.imageMap).isSome
        then 1 else 0) ∧
     ∀ o ∈ outputsFor (runImages envW stW [("h", 3), ("h", 3)]).2 "h" 3,
       o = imgCandidate envW stW "h" 3) :=
  ⟨by decide, rfl, rfl,
   loadImage_once_per_key envW [("h", 3), ("h", 3)] stW "h" 3 (by decide)
     rfl rfl⟩

/-- Claim C6: for an image-typed object whose decode produces no bitmap or
no encoded buffer, `loadImage` still publishes an entry for the key that
settles to the failure sentinel (`none`) instead of rejecting; the caller
(`getImageUrl`) receives absent rather than a thrown error; and a second
`loadImage` for the key returns the cached settled failure without
changing the state — in particular without running the decode again. -/
theorem loadImage_failure_cached (env : Env) (st : MState) (fid : String)
    (pid : Int) (obj : AssetObject)
    (hlk : List.lookup (getAssetKey fid pid) st.imageMap = none)
    (hobj : getAssetObj st fid pid = some obj)
    (himg : obj.type = AssetTy.Sprite ∨ obj.type = AssetTy.Texture2D)
    (hfail : obj.bitmap = none ∨
      ∃ bm, obj.bitmap = some bm ∧ env.convert bm = none) :
    (loadImage env st fid pid).2 = some none ∧
    List.lookup (getAssetKey fid pid) (loadImage env st fid pid).1.imageMap =
      some none ∧
    (getImageUrl env st fid pid).2 = none ∧
    loadImage env (loadImage env st fid pid).1 fid pid =
      ((loadImage env st fid pid).1, some none) ∧
    decodeCount (loadImage env st fid pid).1 (getAssetKey fid pid) =
      decodeCount st (getAssetKey fid pid) + 1 := by
  have hC : imgCandidate env st fid pid = some none := by
    rcases hfail with hb | ⟨bm, hb, hc⟩
    · simp [imgCandidate, hobj, himg, hb]
    · simp [imgCandidate, hobj, himg, hb, hc]
  have hload : loadImage env st fid pid =
      ({ st with
          imageMap := (getAssetKey fid pid, none) :: st.imageMap,
          decodeLog := getAssetKey fid pid :: st.decodeLog },
        some none) := by
    simp [loadImage, hlk, hC]
  have hlk2 : List.lookup (getAssetKey fid pid)
      ((getAssetKey fid pid, none) :: st.imageMap) =
        some (none : Option (List Nat)) := by
    simp [List.lookup]
  refine ⟨by rw [hload], by rw [hload]; exact hlk2, ?_, ?_, ?_⟩
  · simp only [getImageUrl, hload]
  · rw [hload]
    simp only [loadImage, hlk2]
  · rw [hload]
    simp [decodeCount]

/-- Witness for C6: the fixture Sprite without a bitmap. -/
theorem loadImage_failure_cached_witness :
    List.lookup (getAssetKey "h" 2) stW.imageMap = none ∧
    getAssetObj stW "h" 2 = some objSprite ∧
    (objSprite.type = AssetTy.Sprite ∨ objSprite.type = AssetTy.Texture2D) ∧
    (objSprite.bitmap = none ∨
      ∃ bm, objSprite.bitmap = some bm ∧ envW.convert bm = none) ∧
    ((loadImage envW stW "h" 2).2 = some none ∧
     List.lookup (getAssetKey "h" 2) (loadImage envW stW "h" 2).1.imageMap =
       some none ∧
     (getImageUrl envW stW "h" 2).2 = none ∧
     loadImage envW (loadImage envW stW "h" 2).1 "h" 2 =
       ((loadImage envW stW "h" 2).1, some none) ∧
     decodeCount (loadImage envW stW "h" 2).1 (getAssetKey "h" 2) =
       decodeCount stW (getAssetKey "h" 2) + 1) :=
  ⟨rfl, by decide, by decide, by decide,
   loadImage_failure_cached envW stW "h" 2 objSprite rfl (by decide)
     (by decide) (by decide)⟩

/-! ## Export claims (C5, C8) -/

/-- Counterexample to claim C5 as stated: the fixture state holds a Sprite
(`objSprite` at pathId 2) — an exportable image type — yet `exportAsset`
returns absent, because the object's decode produces no bitmap.  The claim
asserts a populated result for every Sprite key. -/
theorem exportAsset_sprite_absent :
    (getAssetObj stW "h" 2).map (fun o => o.type) = some AssetTy.Sprite ∧
    (exportAsset envW stW "h" 2).2 = none := by
  constructor <;> rfl

/-- Claim C5 (amended): `exportAsset` returns absent when the object is
missing or its type is not in {TextAsset, Sprite, Texture2D} — in
particular always absent for a SpriteAtlas key; for a TextAsset key it
returns the asset's raw `data` bytes (written as-is, not transcoded) with
a `.txt` extension; for a Sprite/Texture2D key it returns the encoded
image bytes with a `.png` extension when the image loads, and absent when
no image buffer is produced. -/
theorem exportAsset_cases (env : Env) (st : MState) (fid : String)
    (pid : Int) :
    (getAssetObj st fid pid = none → exportAsset env st fid pid = (st, none)) ∧
    (∀ obj, getAssetObj st fid pid = some obj → canExport obj.type = false →
      exportAsset env st fid pid = (st, none)) ∧
    (∀ obj, getAssetObj st fid pid = some obj →
      obj.type = AssetTy.SpriteAtlas →
      exportAsset env st fid pid = (st, none)) ∧
    (∀ obj, getAssetObj st fid pid = some obj →
      obj.type = AssetTy.TextAsset →
      exportAsset env st fid pid =
        (st, some ⟨getLegalFileName obj.name ++ ".txt", "text/plain",
          obj.data⟩)) ∧
    (∀ obj, getAssetObj st fid pid = some obj →
      (obj.type = AssetTy.Sprite ∨ obj.type = AssetTy.Texture2D) →
      (∀ buf, (loadImage env st fid pid).2 = some (some buf) →
        exportAsset env st fid pid =
          ((loadImage env st fid pid).1,
            some ⟨getLegalFileName obj.name ++ ".png", "image/png", buf⟩)) ∧
      ((∀ buf, (loadImage env st fid pid).2 ≠ some (some buf)) →
        exportAsset env st fid pid = ((loadImage env st fid pid).1, none))) := by
  refine ⟨?_, ?_, ?_, ?_, ?_⟩
  · intro h
    simp [exportAsset, h]
  · intro obj hobj hexp
    simp [exportAsset, hobj, hexp]
  · intro obj hobj hty
    simp [exportAsset, hobj, hty, canExport]
  · intro obj hobj hty
    simp [exportAsset, hobj, hty, canExport]
  · intro obj hobj hty
    constructor
    · intro buf hbuf
      rcases hty with hty | hty <;>
        simp [exportAsset, hobj, hty, canExport, hbuf]
    · intro hbuf
      rcases hload : (loadImage env st fid pid).2 with _ | e
      · rcases hty with hty | hty <;>
          simp [exportAsset, hobj, hty, canExport, hload]
      · rcases e with _ | buf
        · rcases hty with hty | hty <;>
            simp [exportAsset, hobj, hty, canExport, hload]
        · exact absurd hload (hbuf buf)

/-- Witness for the amended C5: the SpriteAtlas fixture is not exported,
the TextAsset fixture exports its raw bytes as `.txt`, and the convertible
Sprite exports its buffer as `.png`. -/
theorem exportAsset_cases_witness :
    (exportAsset envW stW "h" 4).2 = none ∧
    exportAsset envW stW "h" 1 =
      (stW, some ⟨"t.txt", "text/plain", [104, 105]⟩) ∧
    exportAsset envW stW "h" 3 =
      ((loadImage envW stW "h" 3).1, some ⟨"s2.png", "image/png", [9]⟩) :=
  ⟨by rw [(exportAsset_cases envW stW "h" 4).2.2.1 objAtlas (by decide)
      (by decide)],
   (exportAsset_cases envW stW "h" 1).2.2.2.1 objText (by decide) (by decide),
   (exportAsset_cases envW stW "h" 3).2.2.2.2 objSprite2 (by decide)
     (Or.inl (by decide)) |>.1 [9] (by decide)⟩

/-- Claim C8: the archive path of an entry is determined per entry by the
grouping policy — `NONE` gives the flat `name.ext`; `TYPE_NAME` prefixes
the type tag; `SOURCE_FILE_NAME` prefixes the selection's origin file
name; `CONTAINER_PATH` uses the container path verbatim when it is
non-empty and falls back to the flat naming exactly when it is empty.
`getObjPath` is a pure per-entry function, so one entry's fallback cannot
affect a sibling entry. -/
theorem getObjPath_grouping (obj : AssetObject) (fileName container ext : String) :
    getObjPath .NONE (some ⟨some obj, fileName, container⟩) ext =
      getLegalFileName obj.name ++ "." ++ ext ∧
    getObjPath .TYPE_NAME (some ⟨some obj, fileName, container⟩) ext =
      typeName obj.type ++ "/" ++ getLegalFileName obj.name ++ "." ++ ext ∧
    getObjPath .SOURCE_FILE_NAME (some ⟨some obj, fileName, container⟩) ext =
      fileName ++ "/" ++ getLegalFileName obj.name ++ "." ++ ext ∧
    (container ≠ "" →
      getObjPath .CONTAINER_PATH (some ⟨some obj, fileName, container⟩) ext =
        container) ∧
    (container = "" →
      getObjPath .CONTAINER_PATH (some ⟨some obj, fileName, container⟩) ext =
        getLegalFileName obj.name ++ "." ++ ext) := by
  refine ⟨rfl, rfl, rfl, ?_, ?_⟩
  · intro h
    simp [getObjPath, h]
  · intro h
    simp [getObjPath, h]

/-- Witness for C8: two sibling entries under `CONTAINER_PATH`, one with a
container path (used verbatim) and one without (flat fallback), plus the
three other policies. -/
theorem getObjPath_grouping_witness :
    getObjPath .NONE (some ⟨some objText, "src.ab", ""⟩) "txt" = "t.txt" ∧
    getObjPath .TYPE_NAME (some ⟨some objText, "src.ab", ""⟩) "txt" =
      "TextAsset/t.txt" ∧
    getObjPath .SOURCE_FILE_NAME (some ⟨some objText, "src.ab", ""⟩) "txt" =
      "src.ab/t.txt" ∧
    getObjPath .CONTAINER_PATH (some ⟨some objText, "src.ab", "dir/a"⟩) "txt" =
      "dir/a" ∧
    getObjPath .CONTAINER_PATH (some ⟨some objText, "src.ab", ""⟩) "txt" =
      "t.txt" :=
  ⟨(getObjPath_grouping objText "src.ab" "" "txt").1,
   (getObjPath_grouping objText "src.ab" "" "txt").2.1,
   (getObjPath_grouping objText "src.ab" "" "txt").2.2.1,
   (getObjPath_grouping objText "src.ab" "dir/a" "txt").2.2.2.1 (by decide),
   (getObjPath_grouping objText "src.ab" "" "txt").2.2.2.2 rfl⟩

end AsWeb
